import Mathlib

set_option autoImplicit false

deriving instance DecidableEq for Except

namespace Ygrpcgoutil

/-! Shallow embedding of the ygrpcgoutil Go library: the reflection-based
field accessors of part_000 (GetField, SetField, SetFields and the
type-coercion table inside SetField) and the timestamp helpers of
timeutil.go (TimeISOStr, ParseUTCTime).

Go struct values are modelled as ordered lists of named, typed fields;
dynamically typed interface values become the inductive type GoValue whose
constructor is the runtime type.  Machine integers are carried as Int or
Nat with explicit wrap-around where Go performs a fixed-width conversion.
Go division and remainder on int64 truncate toward zero, so they are
rendered with Int.tdiv and Int.tmod. -/

/-- Constant microsecondsPerSecond from part_000. -/
def microsecondsPerSecond : Int := 1000000

/-- Constant microsecondsPerMinute from part_000. -/
def microsecondsPerMinute : Int := 60 * microsecondsPerSecond

/-- Constant microsecondsPerHour from part_000. -/
def microsecondsPerHour : Int := 60 * microsecondsPerMinute

/-- A wall-clock timestamp, the model of Go time.Time restricted to the
calendar fields the library reads and writes (no zone, no sub-second). -/
structure GoDateTime where
  year : Nat
  month : Nat
  day : Nat
  hour : Nat
  minute : Nat
  second : Nat
deriving DecidableEq, Repr

/-- The zero value of Go time.Time: January 1, year 1, 00:00:00. -/
def zeroGoTime : GoDateTime := ⟨1, 1, 1, 0, 0, 0⟩

/-- Left-pad a string with zero digits up to the requested width, the
padding used by Go formatting verbs such as 2006 and 02. -/
def goPadZero (w : Nat) (s : String) : String :=
  if s.length < w then String.mk (List.replicate (w - s.length) '0') ++ s else s

/-- Decimal rendering of an integer, the model of strconv.FormatInt with
base 10 and of strconv.Itoa. -/
def goFormatInt (n : Int) : String :=
  if n < 0 then "-" ++ toString n.natAbs else toString n.natAbs

/-- Rendering of an integer under the Go verb used in Sprintf of part_000
line 171: total width two, zero padding inserted between sign and digits. -/
def go02d (n : Int) : String :=
  if n < 0 then "-" ++ goPadZero 1 (toString n.natAbs)
  else goPadZero 2 (toString n.natAbs)

/-- TimeISOStr from timeutil.go: format a timestamp with the layout
2006-01-02 15:04:05. -/
def TimeISOStr (t : GoDateTime) : String :=
  goPadZero 4 (toString t.year) ++ "-" ++ goPadZero 2 (toString t.month) ++ "-"
    ++ goPadZero 2 (toString t.day) ++ " " ++ goPadZero 2 (toString t.hour) ++ ":"
    ++ goPadZero 2 (toString t.minute) ++ ":" ++ goPadZero 2 (toString t.second)

/-- Numeric value of an ASCII digit character. -/
def digitVal (c : Char) : Nat := c.toNat - 48

/-- Read exactly two digits, the model of the Go time parser getnum with
fixed width (layout chunks 01, 02, 04, 05). -/
def readTwoDigits (cs : List Char) : Option (Nat × List Char) :=
  match cs with
  | c1 :: c2 :: rest =>
    if c1.isDigit && c2.isDigit then some (digitVal c1 * 10 + digitVal c2, rest) else none
  | _ => none

/-- Read exactly four digits, the model of the Go time parser handling of
the layout chunk 2006 (stdLongYear). -/
def readFourDigits (cs : List Char) : Option (Nat × List Char) :=
  match cs with
  | c1 :: c2 :: c3 :: c4 :: rest =>
    if c1.isDigit && c2.isDigit && c3.isDigit && c4.isDigit then
      some (((digitVal c1 * 10 + digitVal c2) * 10 + digitVal c3) * 10 + digitVal c4, rest)
    else none
  | _ => none

/-- Read one or two digits, the model of the Go time parser getnum without
fixed width (layout chunk 15, stdHour). -/
def readOneOrTwoDigits (cs : List Char) : Option (Nat × List Char) :=
  match cs with
  | c1 :: c2 :: rest =>
    if c1.isDigit then
      if c2.isDigit then some (digitVal c1 * 10 + digitVal c2, rest)
      else some (digitVal c1, c2 :: rest)
    else none
  | [c1] => if c1.isDigit then some (digitVal c1, []) else none
  | [] => none

/-- Consume one expected literal character of the layout. -/
def readLiteral (c : Char) (cs : List Char) : Option (List Char) :=
  match cs with
  | d :: rest => if d = c then some rest else none
  | [] => none

/-- Lift an optional intermediate parse result into the error monad. -/
def orFail {α : Type} (o : Option α) (msg : String) : Except String α :=
  match o with
  | some a => Except.ok a
  | none => Except.error msg

/-- Fail with the given message unless the condition holds, the model of
the range checks of the Go time parser. -/
def ensure (b : Bool) (msg : String) : Except String Unit :=
  if b then Except.ok () else Except.error msg

/-- Leap-year rule used by the Go time package. -/
def isLeap (year : Nat) : Bool :=
  year % 4 == 0 && (year % 100 != 0 || year % 400 == 0)

/-- Number of days in a month, the Go time package daysIn. -/
def daysIn (month year : Nat) : Nat :=
  if month = 2 then (if isLeap year then 29 else 28)
  else if month = 4 ∨ month = 6 ∨ month = 9 ∨ month = 11 then 30
  else 31

/-- Model of Go time.Parse applied to the fixed layout
2006-01-02 15:04:05 (ISOTimeFormat of timeutil.go): four digit year,
fixed two digit month, day, minute and second, one or two digit hour,
literal separators, no trailing text, and the range checks the Go parser
performs on hour, minute, second, month and day. -/
def goTimeParseISO (s : String) : Except String GoDateTime := do
  let (year, r1) ← orFail (readFourDigits s.data) "cannot parse year"
  let r2 ← orFail (readLiteral '-' r1) "cannot parse literal"
  let (month, r3) ← orFail (readTwoDigits r2) "cannot parse month"
  let r4 ← orFail (readLiteral '-' r3) "cannot parse literal"
  let (day, r5) ← orFail (readTwoDigits r4) "cannot parse day"
  let r6 ← orFail (readLiteral ' ' r5) "cannot parse literal"
  let (hour, r7) ← orFail (readOneOrTwoDigits r6) "cannot parse hour"
  ensure (hour < 24) "hour out of range"
  let r8 ← orFail (readLiteral ':' r7) "cannot parse literal"
  let (minute, r9) ← orFail (readTwoDigits r8) "cannot parse minute"
  ensure (minute < 60) "minute out of range"
  let r10 ← orFail (readLiteral ':' r9) "cannot parse literal"
  let (second, r11) ← orFail (readTwoDigits r10) "cannot parse second"
  ensure (second < 60) "second out of range"
  ensure r11.isEmpty "extra text"
  ensure (decide (1 ≤ month) && decide (month ≤ 12)) "month out of range"
  ensure (decide (1 ≤ day) && decide (day ≤ daysIn month year)) "day out of range"
  Except.ok ⟨year, month, day, hour, minute, second⟩

/-- ParseUTCTime from timeutil.go: parse with layout 2006-01-02 15:04:05;
on any parse error return the zero time.Time instead of the error. -/
def ParseUTCTime (timeStr : String) : GoDateTime :=
  match goTimeParseISO timeStr with
  | Except.ok result => result
  | Except.error _ => zeroGoTime

/-- The runtime representation types that occur in the SetField coercion
table: the destination kinds string, int32 and uint32, and the source
types time.Time, byte slice, 16-byte array, string map, and the four
integer widths. -/
inductive GoType where
  | tString
  | tInt32
  | tUint32
  | tInt64
  | tUint64
  | tTime
  | tBytes
  | tBytes16
  | tMap
deriving DecidableEq, Repr

/-- Go reflect type name of each modelled type, as produced by the String
method of reflect.Type and compared at part_000 line 127. -/
def goTypeName : GoType → String
  | GoType.tString => "string"
  | GoType.tInt32 => "int32"
  | GoType.tUint32 => "uint32"
  | GoType.tInt64 => "int64"
  | GoType.tUint64 => "uint64"
  | GoType.tTime => "time.Time"
  | GoType.tBytes => "[]uint8"
  | GoType.tBytes16 => "[16]uint8"
  | GoType.tMap => "map[string]interface \x7b\x7d"

/-- Payload of a Go map[string]interface value as far as json.Marshal is
concerned: serializable scalars plus a marker for a value json.Marshal
rejects (such as a channel or a function). -/
inductive JValue where
  | jNull
  | jBool (b : Bool)
  | jInt (n : Int)
  | jString (s : String)
  | jUnsupported
deriving DecidableEq, Repr

/-- A dynamically typed Go interface value, tagged by its runtime type.
The invalid constructor models an absent value, for which reflect.ValueOf
yields an invalid reflect.Value. -/
inductive GoValue where
  | invalid
  | vString (s : String)
  | vInt32 (n : Int)
  | vUint32 (n : Nat)
  | vInt64 (n : Int)
  | vUint64 (n : Nat)
  | vTime (t : GoDateTime)
  | vBytes (bs : List Nat)
  | vBytes16 (bs : List Nat)
  | vMap (m : List (String × JValue))
deriving DecidableEq, Repr

/-- Runtime type of a value; the invalid value has none. -/
def valueTypeOf : GoValue → Option GoType
  | GoValue.invalid => none
  | GoValue.vString _ => some GoType.tString
  | GoValue.vInt32 _ => some GoType.tInt32
  | GoValue.vUint32 _ => some GoType.tUint32
  | GoValue.vInt64 _ => some GoType.tInt64
  | GoValue.vUint64 _ => some GoType.tUint64
  | GoValue.vTime _ => some GoType.tTime
  | GoValue.vBytes _ => some GoType.tBytes
  | GoValue.vBytes16 _ => some GoType.tBytes16
  | GoValue.vMap _ => some GoType.tMap

/-- One named struct field: declared type, current value, and whether
reflect reports it settable (exported, addressable through the pointer
receiver). -/
structure GoStructField where
  name : String
  ty : GoType
  settable : Bool
  val : GoValue
deriving DecidableEq, Repr

/-- A Go struct value: its fields in declaration order. -/
abbrev GoRecord : Type := List GoStructField

/-- Model of reflect FieldByName on a flat struct: the first field with
the given name, if any. -/
def findField : GoRecord → String → Option GoStructField
  | [], _ => none
  | f :: fs, n => if f.name = n then some f else findField fs n

/-- Model of reflect Value.Set through FieldByName: replace the value of
the first field with the given name. -/
def updateField : GoRecord → String → GoValue → GoRecord
  | [], _, _ => []
  | f :: fs, n, v =>
    if f.name = n then { f with val := v } :: fs else f :: updateField fs n v

/-- The error values produced by the embedded functions.  Go represents
them as distinct error values built with errors.New and fmt.Errorf; the
constructor arguments carry the data interpolated into the message. -/
inductive GoErr where
  | noSuchField (name : String)
  | notSettable (name : String)
  | typeMismatch (name : String) (dest : GoType) (src : Option GoType)
  | jsonUnsupported
  | lengthMismatch
deriving DecidableEq, Repr

/-- Byte-order comparison of keys, the order in which json.Marshal emits
the entries of a Go map with string keys. -/
def charListLe : List Char → List Char → Bool
  | [], _ => true
  | _ :: _, [] => false
  | a :: as, b :: bs =>
    if a.toNat < b.toNat then true
    else if b.toNat < a.toNat then false
    else charListLe as bs

/-- Insert an entry into a key-sorted list of map entries. -/
def insertByKey (p : String × JValue) : List (String × JValue) → List (String × JValue)
  | [] => [p]
  | q :: rest =>
    if charListLe p.1.data q.1.data then p :: q :: rest else q :: insertByKey p rest

/-- Sort map entries by key, as json.Marshal does before emitting a map. -/
def sortByKey : List (String × JValue) → List (String × JValue)
  | [] => []
  | p :: rest => insertByKey p (sortByKey rest)

/-- JSON escaping of one character inside a quoted string (quotation mark
and backslash; other modelled characters pass through). -/
def jsonEscapeChar (c : Char) : List Char :=
  if c = '\"' then ['\\', '\"'] else if c = '\\' then ['\\', '\\'] else [c]

/-- A JSON quoted string literal. -/
def jsonQuote (s : String) : String :=
  "\"" ++ String.mk (s.data.map jsonEscapeChar).flatten ++ "\""

/-- JSON encoding of one map payload value; the unsupported marker fails
exactly as json.Marshal fails on a non-serializable value. -/
def jsonValueStr : JValue → Except GoErr String
  | JValue.jNull => Except.ok "null"
  | JValue.jBool true => Except.ok "true"
  | JValue.jBool false => Except.ok "false"
  | JValue.jInt n => Except.ok (goFormatInt n)
  | JValue.jString s => Except.ok (jsonQuote s)
  | JValue.jUnsupported => Except.error GoErr.jsonUnsupported

/-- JSON encoding of a list of already sorted map entries, stopping at
the first value the encoder rejects. -/
def jsonEntries : List (String × JValue) → Except GoErr (List String)
  | [] => Except.ok []
  | (k, v) :: rest =>
    match jsonValueStr v with
    | Except.error e => Except.error e
    | Except.ok vs =>
      match jsonEntries rest with
      | Except.error e => Except.error e
      | Except.ok tail => Except.ok ((jsonQuote k ++ ":" ++ vs) :: tail)

/-- Model of json.Marshal on a Go map with string keys: entries sorted by
key, rendered as a JSON object. -/
def jsonMarshalMap (m : List (String × JValue)) : Except GoErr String :=
  match jsonEntries (sortByKey m) with
  | Except.error e => Except.error e
  | Except.ok es => Except.ok ("\x7b" ++ String.intercalate "," es ++ "\x7d")

/-- Model of the Go string conversion of a byte slice at part_000 line
134: the bytes reinterpreted as text, one character per byte. -/
def goStringOfBytes (bs : List Nat) : String :=
  String.mk (bs.map Char.ofNat)

/-- Lowercase hexadecimal digit. -/
def hexDigit (n : Nat) : Char :=
  if n < 10 then Char.ofNat (48 + n) else Char.ofNat (87 + n)

/-- Two lowercase hexadecimal digits of one byte, as hex.Encode emits. -/
def hexByteChars (b : Nat) : List Char :=
  [hexDigit (b / 16 % 16), hexDigit (b % 16)]

/-- Hexadecimal digits of a byte sequence. -/
def hexChars (bs : List Nat) : List Char :=
  (bs.map hexByteChars).flatten

/-- Model of the String method of github.com/google/uuid called at
part_000 line 140: hex encode the byte groups 0..3, 4..5, 6..7, 8..9 and
10..15 joined by hyphens. -/
def uuidChars (bs : List Nat) : List Char :=
  hexChars (bs.take 4) ++ '-' ::
    (hexChars ((bs.drop 4).take 2) ++ '-' ::
      (hexChars ((bs.drop 6).take 2) ++ '-' ::
        (hexChars ((bs.drop 8).take 2) ++ '-' :: hexChars (bs.drop 10))))

/-- The uuid string written by SetField for a 16 byte array source. -/
def uuidString (bs : List Nat) : String := String.mk (uuidChars bs)

/-- Model of the Go conversions int32(x) at part_000 lines 184, 188 and
192: keep the low 32 bits and reinterpret them as a signed value. -/
def toGoInt32 (x : Int) : Int :=
  let m := x % 4294967296
  if m < 2147483648 then m else m - 4294967296

/-- Model of the Go conversions uint32(x) at part_000 lines 199, 203 and
207: keep the low 32 bits as an unsigned value. -/
def toGoUint32 (x : Int) : Nat :=
  (x % 4294967296).toNat

/-- Model of strings.Contains: substring containment. -/
def goContains (s sub : String) : Bool :=
  containsChars s.data sub.data
where
  containsChars : List Char → List Char → Bool
    | [], sub => sub.isEmpty
    | c :: t, sub => List.isPrefixOf sub (c :: t) || containsChars t sub

/-- The string SetField writes for an int64 source into a string field
(part_000 lines 159 to 177): when the field name contains Time or time
the value counts microseconds since midnight and is rendered HH:MM:SS
with truncating int64 division, otherwise it is rendered in decimal. -/
def int64FieldString (name : String) (usec0 : Int) : String :=
  if goContains name "Time" || goContains name "time" then
    let hours := usec0.tdiv microsecondsPerHour
    let usec1 := usec0 - hours * microsecondsPerHour
    let minutes := usec1.tdiv microsecondsPerMinute
    let usec2 := usec1 - minutes * microsecondsPerMinute
    let seconds := usec2.tdiv microsecondsPerSecond
    go02d hours ++ ":" ++ go02d minutes ++ ":" ++ go02d seconds
  else goFormatInt usec0

/-- The coercion switch of SetField (part_000 lines 124 to 213), reached
when the declared field type differs from the runtime type of the value:
keyed on the destination kind and the source type.  The diagnostic
println for the int32 to string case is a side effect with no influence
on the stored value and is not modelled. -/
def coerceAssign (destTy : GoType) (name : String) (value : GoValue) : Except GoErr GoValue :=
  match destTy, value with
  | GoType.tString, GoValue.vTime t => Except.ok (GoValue.vString (TimeISOStr t))
  | GoType.tString, GoValue.vBytes bs => Except.ok (GoValue.vString (goStringOfBytes bs))
  | GoType.tString, GoValue.vBytes16 bs => Except.ok (GoValue.vString (uuidString bs))
  | GoType.tString, GoValue.vMap m =>
    match jsonMarshalMap m with
    | Except.ok s => Except.ok (GoValue.vString s)
    | Except.error e => Except.error e
  | GoType.tString, GoValue.vInt32 n => Except.ok (GoValue.vString (goFormatInt n))
  | GoType.tString, GoValue.vInt64 n => Except.ok (GoValue.vString (int64FieldString name n))
  | GoType.tInt32, GoValue.vUint32 n => Except.ok (GoValue.vInt32 (toGoInt32 (n : Int)))
  | GoType.tInt32, GoValue.vInt64 n => Except.ok (GoValue.vInt32 (toGoInt32 n))
  | GoType.tInt32, GoValue.vUint64 n => Except.ok (GoValue.vInt32 (toGoInt32 (n : Int)))
  | GoType.tUint32, GoValue.vInt32 n => Except.ok (GoValue.vUint32 (toGoUint32 n))
  | GoType.tUint32, GoValue.vInt64 n => Except.ok (GoValue.vUint32 (toGoUint32 n))
  | GoType.tUint32, GoValue.vUint64 n => Except.ok (GoValue.vUint32 (toGoUint32 (n : Int)))
  | _, _ => Except.error (GoErr.typeMismatch name destTy (valueTypeOf value))

/-- The value SetField stores for a given declared type, field name and
source value: the value itself on an exact runtime type match (part_000
line 122), otherwise the result of the coercion switch. -/
def writtenValue (destTy : GoType) (name : String) (value : GoValue) : Except GoErr GoValue :=
  if valueTypeOf value = some destTy then Except.ok value
  else coerceAssign destTy name value

/-- SetField from part_000 lines 99 to 218: ignore an invalid value,
resolve the field by name, require it settable, then store the exact or
coerced value. -/
def SetField (obj : GoRecord) (name : String) (value : GoValue) : Except GoErr GoRecord :=
  match valueTypeOf value with
  | none => Except.ok obj
  | some _ =>
    match findField obj name with
    | none => Except.error (GoErr.noSuchField name)
    | some f =>
      if f.settable then
        match writtenValue f.ty name value with
        | Except.ok w => Except.ok (updateField obj name w)
        | Except.error e => Except.error e
      else Except.error (GoErr.notSettable name)

/-- GetField from part_000 lines 26 to 38: resolve the field by name and
return its current value; no coercion on the read path. -/
def GetField (obj : GoRecord) (name : String) : Except GoErr GoValue :=
  match findField obj name with
  | none => Except.error (GoErr.noSuchField name)
  | some f => Except.ok f.val

/-- The loop of SetFields (part_000 lines 484 to 489): apply SetField to
every pair in order, remembering only the most recent error. -/
def setFieldsLoop (obj : GoRecord) (err : Option GoErr) :
    List (String × GoValue) → GoRecord × Option GoErr
  | [] => (obj, err)
  | (n, v) :: rest =>
    match SetField obj n v with
    | Except.ok obj1 => setFieldsLoop obj1 err rest
    | Except.error e => setFieldsLoop obj (some e) rest

/-- SetFields from part_000 lines 479 to 492: fail up front when there
are more names than values, otherwise run the loop over the names, each
paired with the value at its index. -/
def SetFields (obj : GoRecord) (fieldNames : List String) (fieldVals : List GoValue) :
    GoRecord × Option GoErr :=
  if fieldNames.length > fieldVals.length then (obj, some GoErr.lengthMismatch)
  else setFieldsLoop obj none (fieldNames.zip fieldVals)

/-! Helper lemmas about field lookup and update. -/

/-- Updating a field that findField resolves leaves it resolvable, with
the new value stored. -/
theorem findField_update {r : GoRecord} {name : String} {f : GoStructField} (w : GoValue)
    (hf : findField r name = some f) :
    findField (updateField r name w) name = some { f with val := w } := by
  induction r with
  | nil => cases hf
  | cons g t ih =>
    by_cases hg : g.name = name
    · simp only [findField, if_pos hg, Option.some.injEq] at hf
      subst hf
      simp [updateField, findField, hg]
    · simp only [findField, if_neg hg] at hf
      simp [updateField, findField, hg, ih hf]

/-- Inversion for a successful SetField on a valid value: the stored
value is the one computed by writtenValue, and the result record is the
field update. -/
theorem setField_ok_written {r : GoRecord} {name : String} {v : GoValue} {τ : GoType}
    {f : GoStructField} {r' : GoRecord}
    (hv : valueTypeOf v = some τ) (hf : findField r name = some f)
    (he : SetField r name v = Except.ok r') :
    ∃ w, writtenValue f.ty name v = Except.ok w ∧ r' = updateField r name w := by
  simp only [SetField, hv, hf] at he
  by_cases hs : f.settable
  · rw [if_pos hs] at he
    cases hw : writtenValue f.ty name v with
    | ok w =>
      rw [hw] at he
      exact ⟨w, rfl, by injection he with h; exact h.symm⟩
    | error e => rw [hw] at he; cases he
  · rw [if_neg hs] at he; cases he

/-- A successful coerced write: SetField stores the value computed by
writtenValue and GetField reads it back. -/
theorem setField_coerced {r : GoRecord} {name : String} {f : GoStructField}
    {v w : GoValue} {τ : GoType}
    (hf : findField r name = some f) (hs : f.settable = true)
    (hv : valueTypeOf v = some τ)
    (hw : writtenValue f.ty name v = Except.ok w) :
    SetField r name v = Except.ok (updateField r name w) ∧
      GetField (updateField r name w) name = Except.ok w := by
  constructor
  · simp only [SetField, hv, hf, if_pos hs, hw]
  · simp only [GetField, findField_update w hf]

/-! C6, C3, C9, C7. -/

/-- C6: for every record and field name, SetField with an
absent/uninitialized value returns success and leaves the record, hence
the named field and every other field, unchanged. -/
theorem setField_invalid_noop (r : GoRecord) (name : String) :
    SetField r name GoValue.invalid = Except.ok r := rfl

/-- C3: when the value sequence is shorter than the name sequence,
SetFields returns the length mismatch error and mutates nothing: the
returned record is the input record. -/
theorem setFields_short_values (r : GoRecord) (names : List String) (vals : List GoValue)
    (h : vals.length < names.length) :
    SetFields r names vals = (r, some GoErr.lengthMismatch) := by
  unfold SetFields
  rw [if_pos (by omega)]

/-- Witness for C3 at a concrete input. -/
theorem setFields_short_values_witness :
    SetFields [⟨"A", GoType.tString, true, GoValue.vString "keep"⟩] ["A", "B"] [GoValue.vString "x"]
      = ([⟨"A", GoType.tString, true, GoValue.vString "keep"⟩], some GoErr.lengthMismatch) :=
  setFields_short_values [⟨"A", GoType.tString, true, GoValue.vString "keep"⟩]
    ["A", "B"] [GoValue.vString "x"] (by decide)

/-- C9: the timestamp-parsing helper is total: when the underlying parse
of layout 2006-01-02 15:04:05 succeeds it returns the parsed timestamp,
and on every parse error it returns the zero timestamp instead of
propagating the failure. -/
theorem parseUTCTime_swallows_errors (s : String) :
    (∀ t, goTimeParseISO s = Except.ok t → ParseUTCTime s = t) ∧
    (∀ e, goTimeParseISO s = Except.error e → ParseUTCTime s = zeroGoTime) := by
  constructor
  · intro t ht
    unfold ParseUTCTime
    rw [ht]
  · intro e he
    unfold ParseUTCTime
    rw [he]

/-- Witness for C9: a valid input parses, an invalid one yields the zero
timestamp. -/
theorem parseUTCTime_swallows_errors_witness :
    ParseUTCTime "2021-03-04 05:06:07" = ⟨2021, 3, 4, 5, 6, 7⟩ ∧
      ParseUTCTime "2021-02-29 05:06:07" = zeroGoTime :=
  ⟨(parseUTCTime_swallows_errors "2021-03-04 05:06:07").1 ⟨2021, 3, 4, 5, 6, 7⟩ (by decide),
   (parseUTCTime_swallows_errors "2021-02-29 05:06:07").2 "day out of range" (by decide)⟩

/-- C7: writing a value whose runtime type equals the declared type of a
settable field succeeds without coercion, and GetField then returns the
value unchanged. -/
theorem setField_getField_roundtrip (r : GoRecord) (name : String) (f : GoStructField)
    (v : GoValue) (hf : findField r name = some f) (hs : f.settable = true)
    (hv : valueTypeOf v = some f.ty) :
    ∃ r', SetField r name v = Except.ok r' ∧ GetField r' name = Except.ok v := by
  have hw : writtenValue f.ty name v = Except.ok v := by
    unfold writtenValue
    rw [if_pos hv]
  obtain ⟨h1, h2⟩ := setField_coerced hf hs hv hw
  exact ⟨updateField r name v, h1, h2⟩

/-- Witness for C7 at a concrete record and string value. -/
theorem setField_getField_roundtrip_witness :
    ∃ r', SetField [⟨"Name", GoType.tString, true, GoValue.vString "old"⟩, ⟨"N", GoType.tInt32, true, GoValue.vInt32 3⟩]
        "Name" (GoValue.vString "new") = Except.ok r' ∧
      GetField r' "Name" = Except.ok (GoValue.vString "new") :=
  setField_getField_roundtrip
    [⟨"Name", GoType.tString, true, GoValue.vString "old"⟩, ⟨"N", GoType.tInt32, true, GoValue.vInt32 3⟩]
    "Name" ⟨"Name", GoType.tString, true, GoValue.vString "old"⟩ (GoValue.vString "new")
    (by decide) rfl rfl

/-! C1: the coercion outcome and what determines it. -/

/-- C1 counterexample: two SetField calls on fields with the same declared
type (string), given the same source value (the int64 3661000000), write
different resulting values because the coercion consults the field name:
a name containing Time selects the clock rendering, any other name the
decimal rendering. -/
theorem setField_value_depends_on_name_cex :
    SetField [⟨"startTime", GoType.tString, true, GoValue.vString ""⟩] "startTime"
        (GoValue.vInt64 3661000000)
      = Except.ok [⟨"startTime", GoType.tString, true, GoValue.vString "01:01:01"⟩] ∧
    SetField [⟨"cnt", GoType.tString, true, GoValue.vString ""⟩] "cnt"
        (GoValue.vInt64 3661000000)
      = Except.ok [⟨"cnt", GoType.tString, true, GoValue.vString "3661000000"⟩] ∧
    GoValue.vString "01:01:01" ≠ GoValue.vString "3661000000" := by
  refine ⟨by decide, by decide, by decide⟩

/-- C1 (amended): the coerced value stored by SetField is determined by
the destination field's declared type, the field name and the source
value alone: two successful SetField calls through fields of the same
declared type and the same name, given the same valid source value, store
the same resulting value, whatever the rest of either record holds and
whatever calls happened before. -/
theorem setField_write_determined (r1 r2 : GoRecord) (name : String) (v : GoValue)
    (f1 f2 : GoStructField)
    (h1 : findField r1 name = some f1) (h2 : findField r2 name = some f2)
    (hty : f1.ty = f2.ty) (hv : valueTypeOf v ≠ none)
    (r1' r2' : GoRecord)
    (e1 : SetField r1 name v = Except.ok r1') (e2 : SetField r2 name v = Except.ok r2') :
    GetField r1' name = GetField r2' name := by
  obtain ⟨τ, hτ⟩ : ∃ τ, valueTypeOf v = some τ := by
    cases h : valueTypeOf v with
    | none => exact absurd h hv
    | some τ => exact ⟨τ, rfl⟩
  obtain ⟨w1, hw1, hr1⟩ := setField_ok_written hτ h1 e1
  obtain ⟨w2, hw2, hr2⟩ := setField_ok_written hτ h2 e2
  have hww : w1 = w2 := by
    rw [hty] at hw1
    rw [hw1] at hw2
    injection hw2
  subst hr1; subst hr2; subst hww
  simp only [GetField, findField_update w1 h1, findField_update w1 h2]

/-- Witness for the amended C1: two records differing in surrounding
fields and in the prior value of the written field store the same value
for the same name, type and source value. -/
theorem setField_write_determined_witness :
    GetField [⟨"startTime", GoType.tString, true, GoValue.vString "01:01:01"⟩,
        ⟨"Other", GoType.tInt32, true, GoValue.vInt32 0⟩] "startTime"
      = GetField [⟨"X", GoType.tUint32, true, GoValue.vUint32 9⟩,
        ⟨"startTime", GoType.tString, true, GoValue.vString "01:01:01"⟩] "startTime" :=
  setField_write_determined
    [⟨"startTime", GoType.tString, true, GoValue.vString "old"⟩,
      ⟨"Other", GoType.tInt32, true, GoValue.vInt32 0⟩]
    [⟨"X", GoType.tUint32, true, GoValue.vUint32 9⟩,
      ⟨"startTime", GoType.tString, true, GoValue.vString "stale"⟩]
    "startTime" (GoValue.vInt64 3661000000)
    ⟨"startTime", GoType.tString, true, GoValue.vString "old"⟩
    ⟨"startTime", GoType.tString, true, GoValue.vString "stale"⟩
    (by decide) (by decide) rfl (by decide) _ _ (by decide) (by decide)

/-! C2 and C10: the batch setter. -/

/-- Reference run of the batch described by the claim: apply SetField to
every pair in order, never stopping, and collect every per-pair error in
encounter order. -/
def batchRunSpec (obj : GoRecord) : List (String × GoValue) → GoRecord × List GoErr
  | [] => (obj, [])
  | (n, v) :: rest =>
    match SetField obj n v with
    | Except.ok obj1 => batchRunSpec obj1 rest
    | Except.error e => ((batchRunSpec obj rest).1, e :: (batchRunSpec obj rest).2)

/-- Last element of a cons in terms of the tail. -/
theorem getLast?_cons_elim {α : Type} : ∀ (l : List α) (a : α),
    (a :: l).getLast? = (l.getLast?).elim (some a) some
  | [], _ => by simp
  | b :: t, a => by
    rw [List.getLast?_cons_cons, getLast?_cons_elim t b]
    cases t.getLast? <;> simp [List.getLast?_cons_cons, getLast?_cons_elim t b]

/-- The SetFields loop computes the record of the reference run, and its
error is the last collected error when one exists, else the accumulator. -/
theorem setFieldsLoop_eq_batchRun (ps : List (String × GoValue)) :
    ∀ (r : GoRecord) (err : Option GoErr),
      setFieldsLoop r err ps
        = ((batchRunSpec r ps).1, ((batchRunSpec r ps).2.getLast?).elim err some) := by
  induction ps with
  | nil => intro r err; simp [setFieldsLoop, batchRunSpec]
  | cons p rest ih =>
    intro r err
    obtain ⟨n, v⟩ := p
    cases hsf : SetField r n v with
    | ok r1 =>
      simp only [setFieldsLoop, batchRunSpec, hsf]
      rw [ih]
    | error e =>
      simp only [setFieldsLoop, batchRunSpec, hsf]
      rw [ih, getLast?_cons_elim]
      cases (batchRunSpec r rest).2.getLast? <;> simp

/-- C2: with at least as many values as names, SetFields applies SetField
to every pair in order, does not stop at a failing pair, and returns the
error of the last failing pair, success when none fails; every earlier
per-pair error is discarded. -/
theorem setFields_last_error_wins (r : GoRecord) (names : List String) (vals : List GoValue)
    (h : names.length ≤ vals.length) :
    SetFields r names vals
      = ((batchRunSpec r (names.zip vals)).1, (batchRunSpec r (names.zip vals)).2.getLast?) := by
  unfold SetFields
  rw [if_neg (by omega), setFieldsLoop_eq_batchRun]
  cases (batchRunSpec r (names.zip vals)).2.getLast? <;> simp

/-- Witness for C2: the first and third pairs fail, the middle one is
applied, and the returned error is the last failure. -/
theorem setFields_last_error_wins_witness :
    SetFields [⟨"A", GoType.tString, true, GoValue.vString ""⟩] ["B", "A", "C"]
        [GoValue.vString "x", GoValue.vString "y", GoValue.vString "z"]
      = ([⟨"A", GoType.tString, true, GoValue.vString "y"⟩], some (GoErr.noSuchField "C")) := by
  rw [setFields_last_error_wins [⟨"A", GoType.tString, true, GoValue.vString ""⟩]
    ["B", "A", "C"] [GoValue.vString "x", GoValue.vString "y", GoValue.vString "z"] (by decide)]
  decide

/-- The error of a JSON scalar encoding is the unsupported-value error. -/
theorem jsonValueStr_error_eq {j : JValue} {e : GoErr}
    (h : jsonValueStr j = Except.error e) : e = GoErr.jsonUnsupported := by
  cases j with
  | jNull => exact Except.noConfusion h
  | jBool b => cases b <;> exact Except.noConfusion h
  | jInt n => exact Except.noConfusion h
  | jString s => exact Except.noConfusion h
  | jUnsupported =>
    simp only [jsonValueStr, Except.error.injEq] at h
    exact h.symm

/-- The error of a JSON entry-list encoding is the unsupported-value
error. -/
theorem jsonEntries_error_eq : ∀ {l : List (String × JValue)} {e : GoErr},
    jsonEntries l = Except.error e → e = GoErr.jsonUnsupported := by
  intro l
  induction l with
  | nil => intro e h; exact Except.noConfusion h
  | cons p rest ih =>
    intro e h
    obtain ⟨k, v⟩ := p
    cases hv : jsonValueStr v with
    | error e1 =>
      simp only [jsonEntries, hv, Except.error.injEq] at h
      exact h ▸ jsonValueStr_error_eq hv
    | ok s =>
      cases ht : jsonEntries rest with
      | error e2 =>
        simp only [jsonEntries, hv, ht, Except.error.injEq] at h
        exact h ▸ ih ht
      | ok tail =>
        simp only [jsonEntries, hv, ht] at h
        exact Except.noConfusion h

/-- The error of the map-to-JSON encoding is the unsupported-value
error. -/
theorem jsonMarshalMap_error_eq {m : List (String × JValue)} {e : GoErr}
    (h : jsonMarshalMap m = Except.error e) : e = GoErr.jsonUnsupported := by
  cases he : jsonEntries (sortByKey m) with
  | error e1 =>
    simp only [jsonMarshalMap, he, Except.error.injEq] at h
    exact h ▸ jsonEntries_error_eq he
  | ok es =>
    simp only [jsonMarshalMap, he] at h
    exact Except.noConfusion h

/-- The coercion switch never fails with the length mismatch sentinel. -/
theorem coerceAssign_no_lengthMismatch {τ : GoType} {name : String} {v : GoValue}
    (h : coerceAssign τ name v = Except.error GoErr.lengthMismatch) : False := by
  unfold coerceAssign at h
  split at h
  all_goals first
    | exact Except.noConfusion h
    | (injection h with h1; exact GoErr.noConfusion h1)
    | (rename_i m
       cases hm : jsonMarshalMap m with
       | ok s =>
         rw [hm] at h
         exact Except.noConfusion h
       | error e1 =>
         rw [hm] at h
         injection h with h1
         have h2 := jsonMarshalMap_error_eq hm
         rw [h1] at h2
         exact GoErr.noConfusion h2)

/-- The written-value computation never fails with the length mismatch
sentinel. -/
theorem writtenValue_no_lengthMismatch {τ : GoType} {name : String} {v : GoValue}
    (h : writtenValue τ name v = Except.error GoErr.lengthMismatch) : False := by
  unfold writtenValue at h
  split at h
  · exact Except.noConfusion h
  · exact coerceAssign_no_lengthMismatch h

/-- SetField never fails with the length mismatch sentinel reserved for
the batch arity check. -/
theorem setField_no_lengthMismatch {r : GoRecord} {n : String} {v : GoValue}
    (h : SetField r n v = Except.error GoErr.lengthMismatch) : False := by
  unfold SetField at h
  split at h
  · exact Except.noConfusion h
  · split at h
    · injection h with h1; exact GoErr.noConfusion h1
    · split at h
      · split at h
        · exact Except.noConfusion h
        · rename_i hw
          injection h with h1
          rw [h1] at hw
          exact writtenValue_no_lengthMismatch hw
      · injection h with h1; exact GoErr.noConfusion h1

/-- The loop never introduces the length mismatch sentinel. -/
theorem setFieldsLoop_ne_lengthMismatch : ∀ (ps : List (String × GoValue)) (r : GoRecord)
    (err : Option GoErr), err ≠ some GoErr.lengthMismatch →
    (setFieldsLoop r err ps).2 ≠ some GoErr.lengthMismatch := by
  intro ps
  induction ps with
  | nil => intro r err herr; simpa [setFieldsLoop] using herr
  | cons p rest ih =>
    intro r err herr
    obtain ⟨n, v⟩ := p
    cases hsf : SetField r n v with
    | ok r1 =>
      simp only [setFieldsLoop, hsf]
      exact ih r1 err herr
    | error e =>
      simp only [setFieldsLoop, hsf]
      refine ih r (some e) ?_
      intro hcontra
      injection hcontra with h1
      rw [h1] at hsf
      exact setField_no_lengthMismatch hsf

/-- Zipping with a truncated right list changes nothing. -/
theorem zip_take_right {α β : Type} : ∀ (l1 : List α) (l2 : List β),
    List.zip l1 (l2.take l1.length) = List.zip l1 l2 := by
  intro l1
  induction l1 with
  | nil => intro l2; simp
  | cons a t ih =>
    intro l2
    cases l2 with
    | nil => simp
    | cons b t2 => simp [List.zip_cons_cons, ih]

/-- C10: with strictly more values than names, SetFields runs the loop
over each name paired with the value at its index, behaves exactly as if
the surplus trailing values were absent, and never returns the length
mismatch error; the arity check fires only when names outnumber values. -/
theorem setFields_surplus_values_ignored (r : GoRecord) (names : List String)
    (vals : List GoValue) (h : names.length < vals.length) :
    SetFields r names vals = setFieldsLoop r none (names.zip vals) ∧
    SetFields r names vals = SetFields r names (vals.take names.length) ∧
    (SetFields r names vals).2 ≠ some GoErr.lengthMismatch := by
  have hguard : ¬ names.length > vals.length := by omega
  have htake : ¬ names.length > (vals.take names.length).length := by
    simp only [List.length_take]
    omega
  refine ⟨?_, ?_, ?_⟩
  · unfold SetFields
    rw [if_neg hguard]
  · unfold SetFields
    rw [if_neg hguard, if_neg htake, zip_take_right]
  · unfold SetFields
    rw [if_neg hguard]
    exact setFieldsLoop_ne_lengthMismatch (names.zip vals) r none (by simp)

/-- Witness for C10 at a concrete input with one surplus value. -/
theorem setFields_surplus_values_ignored_witness :
    (SetFields [⟨"A", GoType.tString, true, GoValue.vString ""⟩] ["A"]
        [GoValue.vString "x", GoValue.vString "surplus"]
      = setFieldsLoop [⟨"A", GoType.tString, true, GoValue.vString ""⟩] none
          (["A"].zip [GoValue.vString "x", GoValue.vString "surplus"])) ∧
    (SetFields [⟨"A", GoType.tString, true, GoValue.vString ""⟩] ["A"]
        [GoValue.vString "x", GoValue.vString "surplus"]
      = SetFields [⟨"A", GoType.tString, true, GoValue.vString ""⟩] ["A"]
          ([GoValue.vString "x", GoValue.vString "surplus"].take 1)) ∧
    (SetFields [⟨"A", GoType.tString, true, GoValue.vString ""⟩] ["A"]
        [GoValue.vString "x", GoValue.vString "surplus"]).2 ≠ some GoErr.lengthMismatch :=
  setFields_surplus_values_ignored [⟨"A", GoType.tString, true, GoValue.vString ""⟩]
    ["A"] [GoValue.vString "x", GoValue.vString "surplus"] (by decide)

/-! C4: the int64 to text coercion. -/

/-- Truncating remainder of a negated natural number. -/
theorem neg_ofNat_tmod (k B : Nat) :
    (-(Int.ofNat k)).tmod (Int.ofNat B) = -Int.ofNat (k % B) := by
  cases k with
  | zero => simp
  | succ j => rfl

/-- Collapsing nested truncating remainders: sixty million divides
3.6 billion, so reducing modulo the hour before the minute changes
nothing. -/
theorem tmod_tmod_usec (v : Int) :
    (v.tmod 3600000000).tmod 60000000 = v.tmod 60000000 := by
  have hdvd : (60000000 : Nat) ∣ 3600000000 := ⟨60, by norm_num⟩
  cases v with
  | ofNat m =>
    show Int.ofNat (m % 3600000000 % 60000000) = Int.ofNat (m % 60000000)
    exact congrArg Int.ofNat (Nat.mod_mod_of_dvd m hdvd)
  | negSucc m =>
    show (-Int.ofNat (m.succ % 3600000000)).tmod 60000000 = -Int.ofNat (m.succ % 60000000)
    rw [show (60000000 : Int) = Int.ofNat 60000000 from rfl, neg_ofNat_tmod,
      Nat.mod_mod_of_dvd m.succ hdvd]

/-- The sequential remainder computation of the source equals the direct
quotient-and-remainder formula of the specification. -/
theorem int64FieldString_spec (name : String) (v : Int) :
    int64FieldString name v =
      if goContains name "Time" || goContains name "time" then
        go02d (v.tdiv 3600000000) ++ ":" ++ go02d ((v.tmod 3600000000).tdiv 60000000)
          ++ ":" ++ go02d ((v.tmod 60000000).tdiv 1000000)
      else goFormatInt v := by
  unfold int64FieldString
  by_cases hc : (goContains name "Time" || goContains name "time") = true
  · rw [if_pos hc, if_pos hc]
    dsimp only
    have e1 : microsecondsPerHour = (3600000000 : Int) := by
      norm_num [microsecondsPerHour, microsecondsPerMinute, microsecondsPerSecond]
    have e2 : microsecondsPerMinute = (60000000 : Int) := by
      norm_num [microsecondsPerMinute, microsecondsPerSecond]
    have e3 : microsecondsPerSecond = (1000000 : Int) := rfl
    rw [e1, e2, e3]
    have h1 : ∀ w : Int, w - w.tdiv 3600000000 * 3600000000 = w.tmod 3600000000 := by
      intro w; rw [Int.tmod_def]; ring
    have h2 : ∀ w : Int, w - w.tdiv 60000000 * 60000000 = w.tmod 60000000 := by
      intro w; rw [Int.tmod_def]; ring
    rw [h1 v, h2 (v.tmod 3600000000), tmod_tmod_usec]
  · rw [if_neg hc, if_neg hc]

/-- C4: writing an int64 into a string field stores the clock rendering
HH:MM:SS of the value read as microseconds since midnight whenever the
field name contains Time or time, with hours the truncating quotient by
3600000000, minutes the truncating quotient of the remainder modulo
3600000000 by 60000000 and seconds the truncating quotient of the
remainder modulo 60000000 by 1000000, each rendered with the 02d verb
and joined by colons; for any other name it stores the plain decimal
rendering. -/
theorem setField_int64_to_text (r : GoRecord) (name : String) (f : GoStructField) (v : Int)
    (hf : findField r name = some f) (hty : f.ty = GoType.tString) (hs : f.settable = true) :
    ∃ r', SetField r name (GoValue.vInt64 v) = Except.ok r' ∧
      GetField r' name = Except.ok (GoValue.vString
        (if goContains name "Time" || goContains name "time" then
          go02d (v.tdiv 3600000000) ++ ":" ++ go02d ((v.tmod 3600000000).tdiv 60000000)
            ++ ":" ++ go02d ((v.tmod 60000000).tdiv 1000000)
        else goFormatInt v)) := by
  have hw : writtenValue f.ty name (GoValue.vInt64 v)
      = Except.ok (GoValue.vString (int64FieldString name v)) := by
    rw [hty]
    simp [writtenValue, coerceAssign, valueTypeOf]
  obtain ⟨h1, h2⟩ := setField_coerced hf hs
    (show valueTypeOf (GoValue.vInt64 v) = some GoType.tInt64 from rfl) hw
  refine ⟨_, h1, ?_⟩
  rw [h2, int64FieldString_spec]

/-- Witness for C4: 3661000000 microseconds on a field named startTime
renders 01:01:01, and the same value on a field with no time in its name
renders in decimal. -/
theorem setField_int64_to_text_witness :
    (∃ r', SetField [⟨"startTime", GoType.tString, true, GoValue.vString ""⟩] "startTime"
        (GoValue.vInt64 3661000000) = Except.ok r' ∧
      GetField r' "startTime" = Except.ok (GoValue.vString "01:01:01")) ∧
    (∃ r', SetField [⟨"cnt", GoType.tString, true, GoValue.vString ""⟩] "cnt"
        (GoValue.vInt64 12345) = Except.ok r' ∧
      GetField r' "cnt" = Except.ok (GoValue.vString "12345")) := by
  constructor
  · obtain ⟨r', h1, h2⟩ := setField_int64_to_text
      [⟨"startTime", GoType.tString, true, GoValue.vString ""⟩] "startTime"
      ⟨"startTime", GoType.tString, true, GoValue.vString ""⟩ 3661000000 (by decide) rfl rfl
    exact ⟨r', h1, h2.trans (by decide)⟩
  · obtain ⟨r', h1, h2⟩ := setField_int64_to_text
      [⟨"cnt", GoType.tString, true, GoValue.vString ""⟩] "cnt"
      ⟨"cnt", GoType.tString, true, GoValue.vString ""⟩ 12345 (by decide) rfl rfl
    exact ⟨r', h1, h2.trans (by decide)⟩

/-! C5: the 32-bit and 64-bit integer coercions. -/

/-- C5: every coercion between the 32-bit and 64-bit integer
representations succeeds without any range check and stores the source
value truncated to its low 32 bits with two's-complement
reinterpretation, signed or unsigned according to the destination. -/
theorem setField_int_narrowing (r : GoRecord) (name : String) (f : GoStructField)
    (hf : findField r name = some f) (hs : f.settable = true) :
    (f.ty = GoType.tInt32 → ∀ n : Nat, ∃ r',
      SetField r name (GoValue.vUint32 n) = Except.ok r' ∧
        GetField r' name = Except.ok (GoValue.vInt32 (toGoInt32 (n : Int)))) ∧
    (f.ty = GoType.tInt32 → ∀ v : Int, ∃ r',
      SetField r name (GoValue.vInt64 v) = Except.ok r' ∧
        GetField r' name = Except.ok (GoValue.vInt32 (toGoInt32 v))) ∧
    (f.ty = GoType.tInt32 → ∀ n : Nat, ∃ r',
      SetField r name (GoValue.vUint64 n) = Except.ok r' ∧
        GetField r' name = Except.ok (GoValue.vInt32 (toGoInt32 (n : Int)))) ∧
    (f.ty = GoType.tUint32 → ∀ v : Int, ∃ r',
      SetField r name (GoValue.vInt32 v) = Except.ok r' ∧
        GetField r' name = Except.ok (GoValue.vUint32 (toGoUint32 v))) ∧
    (f.ty = GoType.tUint32 → ∀ v : Int, ∃ r',
      SetField r name (GoValue.vInt64 v) = Except.ok r' ∧
        GetField r' name = Except.ok (GoValue.vUint32 (toGoUint32 v))) ∧
    (f.ty = GoType.tUint32 → ∀ n : Nat, ∃ r',
      SetField r name (GoValue.vUint64 n) = Except.ok r' ∧
        GetField r' name = Except.ok (GoValue.vUint32 (toGoUint32 (n : Int)))) := by
  refine ⟨?_, ?_, ?_, ?_, ?_, ?_⟩
  · intro hty n
    have hw : writtenValue f.ty name (GoValue.vUint32 n)
        = Except.ok (GoValue.vInt32 (toGoInt32 (n : Int))) := by
      rw [hty]; simp [writtenValue, coerceAssign, valueTypeOf]
    obtain ⟨h1, h2⟩ := setField_coerced hf hs
      (show valueTypeOf (GoValue.vUint32 n) = some GoType.tUint32 from rfl) hw
    exact ⟨_, h1, h2⟩
  · intro hty v
    have hw : writtenValue f.ty name (GoValue.vInt64 v)
        = Except.ok (GoValue.vInt32 (toGoInt32 v)) := by
      rw [hty]; simp [writtenValue, coerceAssign, valueTypeOf]
    obtain ⟨h1, h2⟩ := setField_coerced hf hs
      (show valueTypeOf (GoValue.vInt64 v) = some GoType.tInt64 from rfl) hw
    exact ⟨_, h1, h2⟩
  · intro hty n
    have hw : writtenValue f.ty name (GoValue.vUint64 n)
        = Except.ok (GoValue.vInt32 (toGoInt32 (n : Int))) := by
      rw [hty]; simp [writtenValue, coerceAssign, valueTypeOf]
    obtain ⟨h1, h2⟩ := setField_coerced hf hs
      (show valueTypeOf (GoValue.vUint64 n) = some GoType.tUint64 from rfl) hw
    exact ⟨_, h1, h2⟩
  · intro hty v
    have hw : writtenValue f.ty name (GoValue.vInt32 v)
        = Except.ok (GoValue.vUint32 (toGoUint32 v)) := by
      rw [hty]; simp [writtenValue, coerceAssign, valueTypeOf]
    obtain ⟨h1, h2⟩ := setField_coerced hf hs
      (show valueTypeOf (GoValue.vInt32 v) = some GoType.tInt32 from rfl) hw
    exact ⟨_, h1, h2⟩
  · intro hty v
    have hw : writtenValue f.ty name (GoValue.vInt64 v)
        = Except.ok (GoValue.vUint32 (toGoUint32 v)) := by
      rw [hty]; simp [writtenValue, coerceAssign, valueTypeOf]
    obtain ⟨h1, h2⟩ := setField_coerced hf hs
      (show valueTypeOf (GoValue.vInt64 v) = some GoType.tInt64 from rfl) hw
    exact ⟨_, h1, h2⟩
  · intro hty n
    have hw : writtenValue f.ty name (GoValue.vUint64 n)
        = Except.ok (GoValue.vUint32 (toGoUint32 (n : Int))) := by
      rw [hty]; simp [writtenValue, coerceAssign, valueTypeOf]
    obtain ⟨h1, h2⟩ := setField_coerced hf hs
      (show valueTypeOf (GoValue.vUint64 n) = some GoType.tUint64 from rfl) hw
    exact ⟨_, h1, h2⟩

/-- Witness for C5: the int64 value 4294967296 lands in an int32 field as
0, and the int32 value -1 lands in a uint32 field as 4294967295. -/
theorem setField_int_narrowing_witness :
    (∃ r', SetField [⟨"N", GoType.tInt32, true, GoValue.vInt32 7⟩] "N"
        (GoValue.vInt64 4294967296) = Except.ok r' ∧
      GetField r' "N" = Except.ok (GoValue.vInt32 0)) ∧
    (∃ r', SetField [⟨"U", GoType.tUint32, true, GoValue.vUint32 0⟩] "U"
        (GoValue.vInt32 (-1)) = Except.ok r' ∧
      GetField r' "U" = Except.ok (GoValue.vUint32 4294967295)) := by
  constructor
  · obtain ⟨r', h1, h2⟩ := (setField_int_narrowing
      [⟨"N", GoType.tInt32, true, GoValue.vInt32 7⟩] "N"
      ⟨"N", GoType.tInt32, true, GoValue.vInt32 7⟩ (by decide) rfl).2.1 rfl 4294967296
    exact ⟨r', h1, h2.trans (by decide)⟩
  · obtain ⟨r', h1, h2⟩ := (setField_int_narrowing
      [⟨"U", GoType.tUint32, true, GoValue.vUint32 0⟩] "U"
      ⟨"U", GoType.tUint32, true, GoValue.vUint32 0⟩ (by decide) rfl).2.2.2.1 rfl (-1)
    exact ⟨r', h1, h2.trans (by decide)⟩

/-! C8: the 16-byte array to text coercion. -/

/-- The hexadecimal digits of a byte sequence, exposed one byte at a
time. -/
theorem hexChars_cons (b : Nat) (t : List Nat) :
    hexChars (b :: t) = hexDigit (b / 16 % 16) :: hexDigit (b % 16) :: hexChars t := rfl

/-- Taking bytes before hex encoding equals taking twice as many hex
digits after. -/
theorem hexChars_take : ∀ (bs : List Nat) (n : Nat),
    hexChars (bs.take n) = (hexChars bs).take (2 * n)
  | _, 0 => by simp [hexChars]
  | [], _ => by simp [hexChars]
  | b :: t, n + 1 => by
    rw [List.take_succ_cons, hexChars_cons, hexChars_cons,
      show 2 * (n + 1) = 2 * n + 1 + 1 by ring,
      List.take_succ_cons, List.take_succ_cons, hexChars_take t n]

/-- Dropping bytes before hex encoding equals dropping twice as many hex
digits after. -/
theorem hexChars_drop : ∀ (bs : List Nat) (n : Nat),
    hexChars (bs.drop n) = (hexChars bs).drop (2 * n)
  | _, 0 => by simp
  | [], _ => by simp [hexChars]
  | b :: t, n + 1 => by
    rw [List.drop_succ_cons, hexChars_cons,
      show 2 * (n + 1) = 2 * n + 1 + 1 by ring,
      List.drop_succ_cons, List.drop_succ_cons, hexChars_drop t n]

/-- The canonical hyphenated hexadecimal uuid rendering described by the
specification: the 32 hex digits of the bytes, grouped 8-4-4-4-12 and
joined by hyphens. -/
def canonicalUuidChars (bs : List Nat) : List Char :=
  (hexChars bs).take 8 ++ '-' ::
    (((hexChars bs).drop 8).take 4 ++ '-' ::
      (((hexChars bs).drop 12).take 4 ++ '-' ::
        (((hexChars bs).drop 16).take 4 ++ '-' :: (hexChars bs).drop 20)))

/-- The byte-grouped rendering of the source equals the digit-grouped
canonical rendering of the specification. -/
theorem uuidChars_eq_canonical (bs : List Nat) : uuidChars bs = canonicalUuidChars bs := by
  unfold uuidChars canonicalUuidChars
  rw [hexChars_take bs 4, hexChars_take (bs.drop 4) 2, hexChars_drop bs 4,
    hexChars_take (bs.drop 6) 2, hexChars_drop bs 6,
    hexChars_take (bs.drop 8) 2, hexChars_drop bs 8, hexChars_drop bs 10]

/-- C8: writing a 16-byte array into a string field stores the canonical
hyphenated hexadecimal uuid string of those bytes: their 32 hex digits
grouped 8-4-4-4-12. -/
theorem setField_bytes16_uuid (r : GoRecord) (name : String) (f : GoStructField)
    (bs : List Nat) (hf : findField r name = some f) (hty : f.ty = GoType.tString)
    (hs : f.settable = true) (hlen : bs.length = 16) :
    ∃ r', SetField r name (GoValue.vBytes16 bs) = Except.ok r' ∧
      GetField r' name = Except.ok (GoValue.vString (String.mk (canonicalUuidChars bs))) := by
  have hw : writtenValue f.ty name (GoValue.vBytes16 bs)
      = Except.ok (GoValue.vString (uuidString bs)) := by
    rw [hty]
    simp [writtenValue, coerceAssign, valueTypeOf]
  obtain ⟨h1, h2⟩ := setField_coerced hf hs
    (show valueTypeOf (GoValue.vBytes16 bs) = some GoType.tBytes16 from rfl) hw
  refine ⟨_, h1, ?_⟩
  rw [h2, uuidString, uuidChars_eq_canonical]

/-- Witness for C8 at the concrete byte sequence of the specification. -/
theorem setField_bytes16_uuid_witness :
    ∃ r', SetField [⟨"Id", GoType.tString, true, GoValue.vString ""⟩] "Id"
        (GoValue.vBytes16 [0x00, 0x11, 0x22, 0x33, 0x44, 0x55, 0x66, 0x77,
          0x88, 0x99, 0xaa, 0xbb, 0xcc, 0xdd, 0xee, 0xff])
      = Except.ok r' ∧
      GetField r' "Id" = Except.ok (GoValue.vString "00112233-4455-6677-8899-aabbccddeeff") := by
  obtain ⟨r', h1, h2⟩ := setField_bytes16_uuid
    [⟨"Id", GoType.tString, true, GoValue.vString ""⟩] "Id"
    ⟨"Id", GoType.tString, true, GoValue.vString ""⟩
    [0x00, 0x11, 0x22, 0x33, 0x44, 0x55, 0x66, 0x77,
      0x88, 0x99, 0xaa, 0xbb, 0xcc, 0xdd, 0xee, 0xff]
    (by decide) rfl rfl (by decide)
  exact ⟨r', h1, h2.trans (by decide)⟩

end Ygrpcgoutil
